import Mathlib

/-!
Shallow embedding of the route-planning core of the delivery fleet game
(src/10_advanced_algorithms/delivery_fleet_game) together with proofs about
the planning agents and the game state.

Modelling conventions:
* 2D coordinates and all monetary or volumetric quantities are rationals.
  The Python source computes with IEEE floats; every float value is a
  rational number, so rational-valued functions cover the float behaviour.
* The Euclidean distance of the source (`calc_distance`, a square root) is
  irrational-valued, so every definition that consumes distances is
  parametrised by an arbitrary rational-valued distance oracle
  `d : Point → Point → ℚ`.  Theorems quantify over all such oracles, hence
  in particular over the float-computed Euclidean distance, whose values
  are rationals.  The oracle `absDist` below instantiates the oracles at
  closed inputs.
* `list.sort(key=k)` in Python is a stable sort; its output is uniquely
  determined by the key and the input order, so it is modelled by
  `List.insertionSort` (stable) with the corresponding relation.
  `reverse=True` is modelled with the flipped relation, which is again
  exactly the stable descending sort.
* Python object identity (`is`, `in`, `list.remove`) is modelled as value
  equality, which coincides with identity because packages carry unique
  string identifiers (spec section 3) and vehicles likewise; the proved
  properties below are insensitive to the difference.
* Loops of the source that provably terminate are given an explicit fuel
  equal to a bound on the iteration count, noted at each definition.
-/

/-- 2D coordinate, as in the tuples used across the source. -/
abbrev Point : Type := ℚ × ℚ

/-- Vehicle type record; fields as constructed in tests/conftest.py
(name, capacity_m3, cost_per_km, purchase_price, max_range_km). -/
structure VehicleType where
  name : String
  capacity_m3 : ℚ
  cost_per_km : ℚ
  purchase_price : ℚ
  max_range_km : ℚ
deriving DecidableEq

/-- Vehicle record; fields as constructed in src/models/game_state.py
(id, vehicle_type, purchase_day). -/
structure Vehicle where
  id : String
  vehicle_type : VehicleType
  purchase_day : ℕ
deriving DecidableEq

/-- Package record; fields as constructed in the tests
(id, destination, volume_m3, payment). -/
structure Package where
  id : String
  destination : Point
  volume_m3 : ℚ
  payment : ℚ
deriving DecidableEq

/-- Route record as constructed by the agents:
`Route(vehicle=..., packages=..., stops=..., delivery_map=...)`.
The delivery map enters only through its depot and distance function,
which the route-level computations below receive as parameters, so the
record keeps the three data fields. -/
structure Route where
  vehicle : Vehicle
  packages : List Package
  stops : List Point
deriving DecidableEq

/-- Total volume of the packages carried by a route. -/
def routeVolume (r : Route) : ℚ :=
  (r.packages.map Package.volume_m3).sum

/-- Modelled from the spec: `Route.calculate_total_distance` of the missing
models/route.py, per spec section 4.1: depot to first stop, consecutive
stops, last stop back to the depot. -/
def calculate_total_distance (d : Point → Point → ℚ) (depot : Point) :
    List Point → ℚ
  | [] => 0
  | s :: rest => d depot s + legs s rest
where
  /-- Consecutive legs from the current stop, closing at the depot. -/
  legs : Point → List Point → ℚ
  | s, [] => d s depot
  | s, t :: rest => d s t + legs t rest

/-- Modelled from the spec: `Route.is_valid` of the missing models/route.py,
per spec section 4.1: a route is invalid if total package volume exceeds
vehicle capacity, or some package destination is absent from the stop list,
or the distance exceeds the vehicle maximum range. -/
def Route.is_valid (d : Point → Point → ℚ) (depot : Point) (r : Route) : Bool :=
  decide (routeVolume r ≤ r.vehicle.vehicle_type.capacity_m3) &&
  r.packages.all (fun p => decide (p.destination ∈ r.stops)) &&
  decide (calculate_total_distance d depot r.stops ≤ r.vehicle.vehicle_type.max_range_km)

/-- Modelled from the spec: `RouteAgent.validate_inputs` of the missing
agents/base_agent.py.  Per spec sections 4.6 and 7, strategies return an
empty route list when packages or fleet is empty, which the agents in src
implement by an early return guarded by this check. -/
def validate_inputs (packages : List Package) (fleet : List Vehicle) : Bool :=
  !packages.isEmpty && !fleet.isEmpty

/-- Larger of two rationals, written by cases so that it reduces inside
the kernel (used instead of the lattice `max`, whose instance path does
not reduce there); `pymax a b` is the Python `max(a, b)`. -/
def pymax (a b : ℚ) : ℚ :=
  if b ≤ a then a else b

/-- Absolute value on ℚ written by cases, for the same reducibility
reason. -/
def qabs (x : ℚ) : ℚ :=
  if x ≤ 0 then -x else x

/-- Concrete rational-valued distance oracle (taxicab) used to instantiate
the distance-generic definitions at closed inputs in witnesses and
counterexamples.  The source fixes the oracle to float Euclidean distance;
all distance-generic theorems below hold for every rational-valued oracle,
hence for that one as well, and each closed instance below is chosen so
that its outcome does not depend on the oracle. -/
def absDist (p q : Point) : ℚ :=
  qabs (p.1 - q.1) + qabs (p.2 - q.2)

namespace AgentROld

/-- Embedding of `RAgent.plan_routes` from agents/agent_r_old.py.

The source iterates `for b in boxes: for v in veh: assigned_b.append(b)`
and then builds `Route(v, assigned_b, [b.destination for b in assigned_b])`,
so each input package yields one route that carries that package once per
fleet vehicle and is attached to the last vehicle of the fleet.  When the
package list is nonempty and the fleet is empty, the loop variable `v` is
never bound and the route construction raises UnboundLocalError, modelled
as `Except.error`.  `copy.deepcopy` of the inputs is the identity under
value semantics.  There is no `validate_inputs` guard in this file. -/
def plan_routes (packages : List Package) (fleet : List Vehicle) :
    Except String (List Route) :=
  if packages.isEmpty then .ok []
  else
    match fleet.getLast? with
    | none => .error "UnboundLocalError: local variable v referenced before assignment"
    | some v =>
        .ok (packages.map fun b =>
          { vehicle := v
            packages := List.replicate fleet.length b
            stops := List.replicate fleet.length b.destination })

end AgentROld

/-- Game state fields touched by vehicle purchase, from
src/models/game_state.py (`current_day`, `balance`, `fleet`,
`packages_pending`). -/
structure GameState where
  current_day : ℕ
  balance : ℚ
  fleet : List Vehicle
  packages_pending : List Package
deriving DecidableEq

/-- `GameState.add_vehicle` from src/models/game_state.py: append to the
fleet. -/
def GameState.add_vehicle (s : GameState) (v : Vehicle) : GameState :=
  { s with fleet := s.fleet ++ [v] }

/-- `GameState.purchase_vehicle` from src/models/game_state.py: when the
balance covers the purchase price, deduct it, append a new vehicle with the
given id and the current day, and return True; otherwise return False and
leave the state untouched. -/
def GameState.purchase_vehicle (s : GameState) (vt : VehicleType)
    (vid : String) : Bool × GameState :=
  if vt.purchase_price ≤ s.balance then
    (true, (GameState.add_vehicle
      { s with balance := s.balance - vt.purchase_price }
      { id := vid, vehicle_type := vt, purchase_day := s.current_day }))
  else (false, s)

namespace AgentR

/-- `RAgent._find_cluster` inner loop from agents/agent_r.py: accumulate
boxes while the running volume `cubic` stays within capacity; the loop
breaks after adding the volume of the offending box but before appending
it, so the offender is dropped.  The `distance` accumulator of the source
is written but never read, so it is omitted. -/
def findClusterAux (cap : ℚ) : List Package → ℚ → List Package
  | [], _ => []
  | b :: bs, cubic =>
      let cubic2 := cubic + b.volume_m3
      if cap < cubic2 then []
      else b :: findClusterAux cap bs cubic2

/-- `RAgent._find_cluster` from agents/agent_r.py: the cluster starts with
the seed box unconditionally (its volume is never checked against the
capacity), then accumulates further boxes within capacity.  The Python
filter `b is not box` compares object identity, which coincides with value
inequality because package identifiers are unique. -/
def find_cluster (veh : Vehicle) (box : Package) (boxes : List Package) :
    List Package :=
  box :: findClusterAux veh.vehicle_type.capacity_m3
    (boxes.filter fun b => decide (b ≠ box)) box.volume_m3

/-- One iteration of the `RAgent.greedy_cluster` while loop from
agents/agent_r.py: sort the remaining cluster by distance from the
current origin in reverse (descending) order and pop the last element,
i.e. the nearest one, returning it with the rest of the sorted list, or
nothing when the cluster is exhausted. -/
def greedyStep (d : Point → Point → ℚ) (origin : Point)
    (cluster : List Package) : Option (Package × List Package) :=
  let sorted := cluster.insertionSort fun a b =>
    d origin b.destination ≤ d origin a.destination
  match sorted.getLast? with
  | none => none
  | some box => some (box, sorted.dropLast)

/-- The while loop of `RAgent.greedy_cluster`, iterating `greedyStep`.
Each iteration consumes exactly one box, so fuel equal to the cluster
length replays the whole loop.  Returns the visited destinations and the
boxes in visit order. -/
def greedyClusterAux (d : Point → Point → ℚ) :
    ℕ → Point → List Package → List Point × List Package
  | 0, _, _ => ([], [])
  | fuel + 1, origin, cluster =>
      match greedyStep d origin cluster with
      | none => ([], [])
      | some (box, rest) =>
          let r := greedyClusterAux d fuel box.destination rest
          (box.destination :: r.1, box :: r.2)

/-- `RAgent.greedy_cluster` from agents/agent_r.py: the stop list opens and
closes with the depot, which the source takes from the default argument
`depot = (0, 0)` (the call site passes no depot), and the route carries the
boxes in visit order. -/
def greedy_cluster (d : Point → Point → ℚ) (veh : Vehicle)
    (cluster : List Package) : Route :=
  let depot : Point := (0, 0)
  let g := greedyClusterAux d cluster.length depot cluster
  { vehicle := veh, packages := g.2, stops := depot :: g.1 ++ [depot] }

/-- The mutable instance attributes of `RAgent` from agents/agent_r.py
(`_boxes`, `_vehicles`, `_assigned_boxes`, `_assigned_vehicles`,
`_routes`). -/
structure RAgentState where
  boxes : List Package
  vehicles : List Vehicle
  assigned_boxes : List Package
  assigned_vehicles : List Vehicle
  routes : List Route
deriving DecidableEq

/-- The inner `for c in clusters` loop of `RAgent._clusters_all`: append
the greedy route for each cluster and re-sort the accumulator by total
route distance in reverse (descending) order inside the loop, exactly as
the source does. -/
def buildFinalClusters (d : Point → Point → ℚ) (dm : Point) (veh : Vehicle)
    (clusters : List (List Package)) : List Route :=
  clusters.foldl
    (fun acc c =>
      (acc ++ [greedy_cluster d veh c]).insertionSort fun r1 r2 =>
        calculate_total_distance d dm r2.stops ≤
          calculate_total_distance d dm r1.stops)
    []

/-- `RAgent._clusters_all` from agents/agent_r.py, threading the instance
state.  Per iteration of the while loop: break when no vehicles remain,
pop the last vehicle, build one candidate cluster per unassigned box (the
box list is sorted by distance from the seed before clustering), turn each
cluster into a greedy route, pop the last (smallest total distance) final
cluster, remove its packages from the pending boxes and record the route.
Every iteration removes at least the seed box from the pending boxes, so
fuel equal to the initial box count replays the whole loop; the fuel-zero
and empty-final-cluster branches are unreachable. -/
def clustersAllStep (d : Point → Point → ℚ) (dm : Point)
    (s : RAgentState) : RAgentState ⊕ RAgentState :=
  if s.boxes.isEmpty then .inl s
  else
    match s.vehicles.getLast? with
    | none => .inl s
    | some veh =>
        let s1 : RAgentState :=
          { s with
            vehicles := s.vehicles.dropLast
            assigned_vehicles := s.assigned_vehicles ++ [veh] }
        let candidates :=
          s1.boxes.filter fun b => decide (b ∉ s1.assigned_boxes)
        let clusters := candidates.map fun b =>
          find_cluster veh b
            (s1.boxes.insertionSort fun x y =>
              d b.destination x.destination ≤ d b.destination y.destination)
        match (buildFinalClusters d dm veh clusters).getLast? with
        | none => .inl s1
        | some route =>
            .inr
              { s1 with
                boxes := route.packages.foldl
                  (fun bs b => bs.erase b) s1.boxes
                assigned_boxes := s1.assigned_boxes ++ route.packages
                routes := s1.routes ++ [route] }

/-- The while loop of `RAgent._clusters_all`, iterating `clustersAllStep`
until it stops or the fuel runs out. -/
def clusters_all (d : Point → Point → ℚ) (dm : Point) :
    ℕ → RAgentState → RAgentState
  | 0, s => s
  | fuel + 1, s =>
      match clustersAllStep d dm s with
      | .inl t => t
      | .inr t => clusters_all d dm fuel t

/-- `RAgent.plan_routes` from agents/agent_r.py, with the instance state
passed explicitly.  After the input validation guard the method overwrites
every mutable attribute: deep copies of the inputs (the identity under
value semantics), empty assignment lists and routes, then sorts the
vehicles ascending by cost per km per cubic metre and runs the clustering
loop, returning the recorded routes. -/
def plan_routes_st (d : Point → Point → ℚ) (dm : Point) (s : RAgentState)
    (packages : List Package) (fleet : List Vehicle) :
    RAgentState × List Route :=
  if !(validate_inputs packages fleet) then (s, [])
  else
    let s1 : RAgentState :=
      { boxes := packages
        vehicles := fleet.insertionSort fun v w =>
          v.vehicle_type.cost_per_km / v.vehicle_type.capacity_m3 ≤
            w.vehicle_type.cost_per_km / w.vehicle_type.capacity_m3
        assigned_boxes := []
        assigned_vehicles := []
        routes := [] }
    let s2 := clusters_all d dm packages.length s1
    (s2, s2.routes)

/-- `RAgent.plan_routes` on a freshly constructed agent (all mutable
attributes empty, as set by `__init__`). -/
def plan_routes (d : Point → Point → ℚ) (dm : Point)
    (packages : List Package) (fleet : List Vehicle) : List Route :=
  (plan_routes_st d dm ⟨[], [], [], [], []⟩ packages fleet).2

end AgentR

namespace Router

/-- Modelled from the spec: `Router.nearest_neighbor_tsp` of the missing
core/router.py, per spec section 4.2: repeatedly move to the unvisited
point nearest to the current position, breaking ties by original input
order.  Each step consumes one point, so fuel equal to the input length
replays the loop. -/
def nearestNeighborAux (d : Point → Point → ℚ) :
    ℕ → Point → List Point → List Point
  | 0, _, _ => []
  | fuel + 1, current, remaining =>
      match remaining with
      | [] => []
      | p :: ps =>
          let best := ps.foldl
            (fun acc q => if d current q < d current acc then q else acc) p
          best :: nearestNeighborAux d fuel best (remaining.erase best)

/-- Modelled from the spec: nearest-neighbour ordering of a point set from
a starting position (spec section 4.2). -/
def nearest_neighbor_tsp (d : Point → Point → ℚ) (start : Point)
    (points : List Point) : List Point :=
  nearestNeighborAux d points.length start points

/-- Modelled from the spec: `Router.optimize_package_sequence` of the
missing core/router.py, used by the neural agent with `use_2opt=False`:
order the packages by the nearest-neighbour rule on their destinations
from the depot (spec sections 4.2 and 4.5), ties broken by input order. -/
def optimizePackageSequenceAux (d : Point → Point → ℚ) :
    ℕ → Point → List Package → List Package
  | 0, _, _ => []
  | fuel + 1, current, remaining =>
      match remaining with
      | [] => []
      | p :: ps =>
          let best := ps.foldl
            (fun acc q =>
              if d current q.destination < d current acc.destination then q
              else acc) p
          best :: optimizePackageSequenceAux d fuel best.destination
            (remaining.erase best)

/-- Modelled from the spec: nearest-neighbour package ordering from the
depot. -/
def optimize_package_sequence (d : Point → Point → ℚ) (depot : Point)
    (packages : List Package) : List Package :=
  optimizePackageSequenceAux d packages.length depot packages

/-- Modelled from the spec: `Router.calculate_route_distance` of the
missing core/router.py, identical to the route distance formula of spec
section 4.1 (depot legs included). -/
def calculate_route_distance (d : Point → Point → ℚ) (depot : Point)
    (stops : List Point) : ℚ :=
  calculate_total_distance d depot stops

/-- The ordered index pairs i < j over a tour of length n, in scan order. -/
def segmentPairs (n : ℕ) : List (ℕ × ℕ) :=
  (List.range n).flatMap fun i =>
    (List.range n).filterMap fun j =>
      if i < j then some (i, j) else none

/-- Reversal of the tour segment between positions i and j inclusive. -/
def twoOptSwap (tour : List Point) (i j : ℕ) : List Point :=
  tour.take i ++ ((tour.drop i).take (j - i + 1)).reverse ++ tour.drop (j + 1)

/-- Modelled from the spec: one scan of `Router.two_opt_improvement`
(missing core/router.py), per spec section 4.3: find the first segment
reversal that makes the tour strictly shorter (first-improvement), if
any.  The depot participates in the distance but is not part of the
permutable point set. -/
def twoOptPass (d : Point → Point → ℚ) (depot : Point)
    (tour : List Point) : Option (List Point) :=
  (segmentPairs tour.length).findSome? fun ij =>
    let t2 := twoOptSwap tour ij.1 ij.2
    if calculate_route_distance d depot t2 <
        calculate_route_distance d depot tour then some t2
    else none

/-- Modelled from the spec: `Router.two_opt_improvement` of the missing
core/router.py, per spec section 4.3: apply first-improvement reversals,
restarting the scan after each applied move, until a full scan finds no
improving reversal or the iteration cap is reached. -/
def two_opt_improvement (d : Point → Point → ℚ) (depot : Point)
    (tour : List Point) : ℕ → List Point
  | 0 => tour
  | maxIterations + 1 =>
      match twoOptPass d depot tour with
      | none => tour
      | some t2 => two_opt_improvement d depot t2 maxIterations

end Router

namespace NeuralAgent

/-- `NeuralRAgent._select_packages_for_vehicle` from
agents/agent_r_neural.py: keep the candidates that fit the vehicle at all,
sort them by payment density (payment over volume floored at 0.01) in
reverse (descending) order, greedily admit while the cumulative volume
stays within capacity plus a 1e-6 slack, and fall back to the single best
candidate when nothing was admitted. -/
def select_packages_for_vehicle (veh : Vehicle) (candidates : List Package) :
    List Package :=
  let capacity := veh.vehicle_type.capacity_m3
  let sortable := candidates.filter fun p => decide (p.volume_m3 ≤ capacity)
  let sorted := sortable.insertionSort fun p q =>
    q.payment / pymax q.volume_m3 (1 / 100) ≤ p.payment / pymax p.volume_m3 (1 / 100)
  let selected := (sorted.foldl
    (fun (acc : List Package × ℚ) p =>
      if acc.2 + p.volume_m3 ≤ capacity + 1 / 1000000 then
        (acc.1 ++ [p], acc.2 + p.volume_m3)
      else acc)
    ([], 0)).1
  if selected.isEmpty then
    match sorted with
    | [] => selected
    | q :: _ => [q]
  else selected

/-- The delivery-order decisions of the trained policy network in
`NeuralRAgent._rollout_policy` (agents/agent_r_neural.py), abstracted as
an arbitrary index chooser: at step t the environment pops the package at
index `pick t` modulo the number of remaining packages (the network
argmax is always within the number of valid actions, which the modulus
enforces for an arbitrary chooser).  The floating-point training loop
affects only which chooser arises, so theorems quantify over all
choosers.  Each step consumes one package, so fuel equal to the selection
size replays the episode. -/
def rolloutAux (pick : ℕ → ℕ) :
    ℕ → ℕ → List Package → List Package
  | 0, _, _ => []
  | fuel + 1, t, remaining =>
      if remaining.isEmpty then []
      else
        let idx := pick t % remaining.length
        match remaining.get? idx with
        | none => []
        | some pkg => pkg :: rolloutAux pick fuel (t + 1) (remaining.eraseIdx idx)

/-- `NeuralRAgent._rollout_policy` from agents/agent_r_neural.py: greedy
rollout of the learned policy over the environment, returning the
delivery order; the stop list it accumulates is exactly the destinations
of that order. -/
def rollout_policy (pick : ℕ → ℕ) (packages : List Package) : List Package :=
  rolloutAux pick packages.length 0 packages

/-- `NeuralRAgent._train_and_plan` from agents/agent_r_neural.py with the
trained network abstracted into the chooser: the `env.max_actions == 0`
early return is dead code (`max_actions` is at least 1), the training
episodes only shape the chooser, and an empty rollout falls back to the
nearest-neighbour package order.  Returns the ordered packages and their
destinations as stops. -/
def train_and_plan (d : Point → Point → ℚ) (depot : Point) (pick : ℕ → ℕ)
    (packages : List Package) : List Package × List Point :=
  let ordered := rollout_policy pick packages
  let ordered :=
    if ordered.isEmpty then Router.optimize_package_sequence d depot packages
    else ordered
  (ordered, ordered.map Package.destination)

/-- The `for vehicle in fleet` loop of `NeuralRAgent.plan_routes`
(agents/agent_r_neural.py): select packages for the vehicle, skip it when
nothing is selected, plan the order, rebuild the route with the plain
nearest-neighbour order when the planned route is invalid, record the
route and remove the routed packages from the remaining pool.  The
chooser takes the position of the vehicle in the fleet as its first
argument, since each vehicle trains its own network. -/
def planRoutesGo (d : Point → Point → ℚ) (depot : Point)
    (pick : ℕ → ℕ → ℕ) : ℕ → List Vehicle → List Package → List Route →
    List Route
  | _, [], _, routes => routes
  | k, veh :: rest, remaining, routes =>
      let selection := select_packages_for_vehicle veh remaining
      if selection.isEmpty then planRoutesGo d depot pick (k + 1) rest remaining routes
      else
        let planned := train_and_plan d depot (pick k) selection
        let route : Route :=
          { vehicle := veh, packages := planned.1, stops := planned.2 }
        let route :=
          if !(route.is_valid d depot) then
            let ordered := Router.optimize_package_sequence d depot selection
            { vehicle := veh, packages := ordered
              stops := ordered.map Package.destination }
          else route
        planRoutesGo d depot pick (k + 1) rest
          (route.packages.foldl (fun rem p => rem.erase p) remaining)
          (routes ++ [route])

/-- `NeuralRAgent.plan_routes` from agents/agent_r_neural.py: validate the
inputs, then run the per-vehicle loop on a copy of the package list.  Any
leftover packages only feed a print statement, so the returned value is
the route list alone. -/
def plan_routes (d : Point → Point → ℚ) (depot : Point) (pick : ℕ → ℕ → ℕ)
    (packages : List Package) (fleet : List Vehicle) : List Route :=
  if !(validate_inputs packages fleet) then []
  else planRoutesGo d depot pick 0 fleet packages []

end NeuralAgent

section ListHelpers

variable {α : Type}

/-- A value produced by `getLast?` is a member of the list. -/
theorem mem_of_getLast?_eq {l : List α} {a : α} (h : l.getLast? = some a) :
    a ∈ l := by
  cases l with
  | nil => simp at h
  | cons x xs =>
      have hne : x :: xs ≠ [] := by simp
      rw [List.getLast?_eq_getLast _ hne] at h
      rw [← Option.some_inj.mp h]
      exact List.getLast_mem hne

/-- Recomposing a list from `dropLast` and its `getLast?` value. -/
theorem dropLast_concat_of_getLast? {l : List α} {a : α}
    (h : l.getLast? = some a) : l.dropLast ++ [a] = l := by
  cases l with
  | nil => simp at h
  | cons x xs =>
      have hne : x :: xs ≠ [] := by simp
      rw [List.getLast?_eq_getLast _ hne] at h
      rw [← Option.some_inj.mp h]
      exact List.dropLast_concat_getLast hne

/-- A list whose `getLast?` is `none` is empty. -/
theorem eq_nil_of_getLast?_eq_none {l : List α} (h : l.getLast? = none) :
    l = [] := by
  cases l with
  | nil => rfl
  | cons x xs =>
      have hne : x :: xs ≠ [] := by simp
      rw [List.getLast?_eq_getLast _ hne] at h
      simp at h

/-- Folding `List.erase` over removals only drops elements. -/
theorem foldl_erase_subset [DecidableEq α] :
    ∀ (ps : List α) (bs : List α),
      ps.foldl (fun l b => l.erase b) bs ⊆ bs
  | [], _ => fun _ h => h
  | p :: ps, bs => fun _x hx =>
      List.erase_subset p bs (foldl_erase_subset ps (bs.erase p) hx)

end ListHelpers

namespace AgentR

/-- The running volume bound of `_find_cluster`: starting from a within-
capacity running total, the admitted boxes never push the total past the
capacity. -/
theorem findClusterAux_sum_le (cap : ℚ) :
    ∀ (bs : List Package) (cubic : ℚ), cubic ≤ cap →
      cubic + ((findClusterAux cap bs cubic).map Package.volume_m3).sum ≤ cap
  | [], cubic, h => by simpa [findClusterAux]
  | b :: bs, cubic, h => by
      unfold findClusterAux
      by_cases hc : cap < cubic + b.volume_m3
      · simpa [hc]
      · have h2 : cubic + b.volume_m3 ≤ cap := le_of_not_lt hc
        have hrec := findClusterAux_sum_le cap bs (cubic + b.volume_m3) h2
        simp only [if_neg hc, List.map_cons, List.sum_cons]
        linarith

/-- A cluster seeded by a box that fits the vehicle stays within the
vehicle capacity. -/
theorem find_cluster_volume_le (veh : Vehicle) (box : Package)
    (boxes : List Package)
    (h : box.volume_m3 ≤ veh.vehicle_type.capacity_m3) :
    ((find_cluster veh box boxes).map Package.volume_m3).sum ≤
      veh.vehicle_type.capacity_m3 := by
  have hb := findClusterAux_sum_le veh.vehicle_type.capacity_m3
    (boxes.filter fun b => decide (b ≠ box)) box.volume_m3 h
  simpa [find_cluster] using hb

/-- A stopped `greedyStep` means the cluster was exhausted. -/
theorem greedyStep_eq_none (d : Point → Point → ℚ) (origin : Point)
    (cluster : List Package) (h : greedyStep d origin cluster = none) :
    cluster = [] := by
  simp only [greedyStep] at h
  split at h
  next heq =>
    have hnil := eq_nil_of_getLast?_eq_none heq
    have hperm := List.perm_insertionSort
      (fun a b : Package =>
        d origin b.destination ≤ d origin a.destination) cluster
    rw [hnil] at hperm
    exact hperm.symm.eq_nil
  next box heq => exact absurd h (by simp)

/-- A productive `greedyStep` pops one box: the popped box together with
the rest recompose a permutation of the cluster, and the rest is one box
shorter. -/
theorem greedyStep_eq_some (d : Point → Point → ℚ) (origin : Point)
    (cluster : List Package) (box : Package) (rest : List Package)
    (h : greedyStep d origin cluster = some (box, rest)) :
    (rest ++ [box]).Perm cluster ∧ rest.length + 1 = cluster.length := by
  simp only [greedyStep] at h
  split at h
  next heq => exact absurd h (by simp)
  next box2 heq =>
    simp only [Option.some.injEq, Prod.mk.injEq] at h
    obtain ⟨rfl, rfl⟩ := h
    have hperm := List.perm_insertionSort
      (fun a b : Package =>
        d origin b.destination ≤ d origin a.destination) cluster
    have hconcat := dropLast_concat_of_getLast? heq
    have hlen := List.length_insertionSort
      (fun a b : Package =>
        d origin b.destination ≤ d origin a.destination) cluster
    have hne : (cluster.insertionSort fun a b =>
        d origin b.destination ≤ d origin a.destination) ≠ [] := by
      intro hnil
      rw [hnil] at heq
      simp at heq
    constructor
    · rw [hconcat]
      exact hperm
    · have := List.length_dropLast (cluster.insertionSort fun a b =>
        d origin b.destination ≤ d origin a.destination)
      have hpos : 0 < (cluster.insertionSort fun a b =>
          d origin b.destination ≤ d origin a.destination).length :=
        List.length_pos.mpr hne
      omega

/-- The greedy ordering loop returns a permutation of its cluster and the
visited destinations of that permutation, given enough fuel. -/
theorem greedyClusterAux_spec (d : Point → Point → ℚ) :
    ∀ (fuel : ℕ) (origin : Point) (cluster : List Package),
      cluster.length ≤ fuel →
      (greedyClusterAux d fuel origin cluster).2.Perm cluster ∧
      (greedyClusterAux d fuel origin cluster).1 =
        (greedyClusterAux d fuel origin cluster).2.map Package.destination
  | 0, origin, cluster, h => by
      have hc : cluster = [] := List.length_eq_zero.mp (Nat.le_zero.mp h)
      subst hc
      simp [greedyClusterAux]
  | fuel + 1, origin, cluster, h => by
      unfold greedyClusterAux
      cases hstep : greedyStep d origin cluster with
      | none =>
          have hc := greedyStep_eq_none d origin cluster hstep
          subst hc
          simp
      | some pr =>
          obtain ⟨box, rest⟩ := pr
          have hsp := greedyStep_eq_some d origin cluster box rest hstep
          have hlen : rest.length ≤ fuel := by
            have := hsp.2
            omega
          have ih := greedyClusterAux_spec d fuel box.destination rest hlen
          refine ⟨?_, ?_⟩
          · exact (ih.1.cons box).trans
              ((List.perm_append_singleton box rest).symm.trans hsp.1)
          · simp [ih.2]

/-- Shape of a route produced by `greedy_cluster`: the supplied vehicle, a
permutation of the cluster, and stops that are the hardcoded depot (0, 0),
the destinations of the carried packages in order, and the depot again. -/
theorem greedy_cluster_spec (d : Point → Point → ℚ) (veh : Vehicle)
    (cluster : List Package) :
    (greedy_cluster d veh cluster).vehicle = veh ∧
    (greedy_cluster d veh cluster).packages.Perm cluster ∧
    (greedy_cluster d veh cluster).stops =
      ((0 : ℚ), (0 : ℚ)) ::
        (greedy_cluster d veh cluster).packages.map Package.destination ++
        [((0 : ℚ), (0 : ℚ))] := by
  have h := greedyClusterAux_spec d cluster.length ((0 : ℚ), (0 : ℚ))
    cluster le_rfl
  refine ⟨rfl, h.1, ?_⟩
  simp only [greedy_cluster, h.2]

/-- Every route in the `final_clusters` accumulator is the greedy route of
one of the candidate clusters (or was already in the accumulator). -/
theorem mem_buildFinalClusters_aux (d : Point → Point → ℚ) (dm : Point)
    (veh : Vehicle) :
    ∀ (clusters : List (List Package)) (acc : List Route) (r : Route),
      r ∈ clusters.foldl
        (fun acc c =>
          (acc ++ [greedy_cluster d veh c]).insertionSort fun r1 r2 =>
            calculate_total_distance d dm r2.stops ≤
              calculate_total_distance d dm r1.stops)
        acc →
      r ∈ acc ∨ ∃ c ∈ clusters, r = greedy_cluster d veh c
  | [], acc, r => fun h => Or.inl h
  | c :: cs, acc, r => by
      intro h
      have hrec := mem_buildFinalClusters_aux d dm veh cs
        ((acc ++ [greedy_cluster d veh c]).insertionSort fun r1 r2 =>
          calculate_total_distance d dm r2.stops ≤
            calculate_total_distance d dm r1.stops) r h
      rcases hrec with hacc | ⟨c2, hc2, hr2⟩
      · rw [List.mem_insertionSort, List.mem_append] at hacc
        rcases hacc with hacc | hsing
        · exact Or.inl hacc
        · exact Or.inr ⟨c, by simp, by simpa using hsing⟩
      · exact Or.inr ⟨c2, by simp [hc2], hr2⟩

/-- Every route in `buildFinalClusters` is the greedy route of one of the
candidate clusters. -/
theorem mem_buildFinalClusters (d : Point → Point → ℚ) (dm : Point)
    (veh : Vehicle) (clusters : List (List Package)) (r : Route)
    (h : r ∈ buildFinalClusters d dm veh clusters) :
    ∃ c ∈ clusters, r = greedy_cluster d veh c := by
  rcases mem_buildFinalClusters_aux d dm veh clusters [] r h with h0 | h1
  · simp at h0
  · exact h1

end AgentR

namespace AgentR

/-- A stopping step of the clustering loop leaves the recorded routes
unchanged. -/
theorem clustersAllStep_inl (d : Point → Point → ℚ) (dm : Point)
    (s t : RAgentState) (h : clustersAllStep d dm s = .inl t) :
    t.routes = s.routes := by
  simp only [clustersAllStep] at h
  split at h
  · cases h
    rfl
  · split at h
    next => cases h; rfl
    next veh heq =>
      split at h
      next => cases h; rfl
      next route heq2 => exact absurd h (by simp)

/-- A continuing step of the clustering loop shrinks the pending boxes and
vehicles and appends exactly one route, which is the greedy route of a
cluster seeded by a pending box for a pending vehicle. -/
theorem clustersAllStep_inr (d : Point → Point → ℚ) (dm : Point)
    (s t : RAgentState) (h : clustersAllStep d dm s = .inr t) :
    t.boxes ⊆ s.boxes ∧ t.vehicles ⊆ s.vehicles ∧
    ∃ veh ∈ s.vehicles, ∃ b ∈ s.boxes, ∃ boxes2 : List Package,
      boxes2 ⊆ s.boxes ∧
      t.routes = s.routes ++ [greedy_cluster d veh (find_cluster veh b boxes2)] := by
  simp only [clustersAllStep] at h
  split at h
  · exact absurd h (by simp)
  · split at h
    next => exact absurd h (by simp)
    next veh heq =>
      split at h
      next => exact absurd h (by simp)
      next route heq2 =>
        cases h
        refine ⟨foldl_erase_subset _ _, List.dropLast_subset _, ?_⟩
        have hroute := mem_of_getLast?_eq heq2
        obtain ⟨c, hc, hrc⟩ := mem_buildFinalClusters d dm veh _ route hroute
        obtain ⟨b, hb, hcb⟩ := List.mem_map.mp hc
        refine ⟨veh, mem_of_getLast?_eq heq, b, List.mem_of_mem_filter hb,
          s.boxes.insertionSort fun x y =>
            d b.destination x.destination ≤ d b.destination y.destination,
          ?_, ?_⟩
        · intro x hx
          exact (List.mem_insertionSort _).mp hx
        · rw [← hcb] at hrc
          rw [hrc]

/-- Master invariant of the clustering loop: any route property that holds
for every greedy route of a cluster seeded by an ambient box for an
ambient vehicle is carried to every recorded route. -/
theorem clusters_all_routes_ind (d : Point → Point → ℚ) (dm : Point)
    (P : Route → Prop) (pkgs0 : List Package) (fleet0 : List Vehicle)
    (hP : ∀ veh ∈ fleet0, ∀ b ∈ pkgs0, ∀ boxes2 : List Package,
      boxes2 ⊆ pkgs0 → P (greedy_cluster d veh (find_cluster veh b boxes2))) :
    ∀ (fuel : ℕ) (s : RAgentState), s.boxes ⊆ pkgs0 → s.vehicles ⊆ fleet0 →
      (∀ r ∈ s.routes, P r) →
      ∀ r ∈ (clusters_all d dm fuel s).routes, P r
  | 0, _, _, _, hr => hr
  | fuel + 1, s, hb, hv, hr => by
      unfold clusters_all
      cases hstep : clustersAllStep d dm s with
      | inl t =>
          have ht := clustersAllStep_inl d dm s t hstep
          intro r hrm
          exact hr r (ht ▸ hrm)
      | inr t =>
          obtain ⟨htb, htv, veh, hveh, b, hbmem, boxes2, hsub, htr⟩ :=
            clustersAllStep_inr d dm s t hstep
          refine clusters_all_routes_ind d dm P pkgs0 fleet0 hP fuel t
            (fun x hx => hb (htb hx)) (fun x hx => hv (htv hx)) ?_
          intro r hrm
          rw [htr] at hrm
          rcases List.mem_append.mp hrm with h1 | h2
          · exact hr r h1
          · have hr2 : r = greedy_cluster d veh (find_cluster veh b boxes2) := by
              simpa using h2
            rw [hr2]
            exact hP veh (hv hveh) b (hb hbmem) boxes2 fun x hx => hb (hsub hx)

end AgentR

section ChoiceHelpers

variable {α : Type}

/-- A fold that at each step keeps the accumulator or replaces it by the
scanned element lands on the start value or a scanned element. -/
theorem foldl_choose_mem (f : α → α → α)
    (hf : ∀ a b, f a b = a ∨ f a b = b) :
    ∀ (ps : List α) (a : α), ps.foldl f a ∈ a :: ps
  | [], a => by simp
  | p :: ps, a => by
      have hrec := foldl_choose_mem f hf ps (f a p)
      rcases hf a p with h | h <;>
        · rw [h] at hrec
          simp only [List.foldl_cons, h]
          simp only [List.mem_cons] at hrec ⊢
          tauto

/-- Removing the element at a valid index splits off a permutation. -/
theorem perm_cons_eraseIdx :
    ∀ (l : List α) (i : ℕ) (a : α), l.get? i = some a →
      l.Perm (a :: l.eraseIdx i)
  | [], i, a, h => by simp at h
  | x :: xs, 0, a, h => by
      simp only [List.get?] at h
      cases h
      simp [List.eraseIdx]
  | x :: xs, i + 1, a, h => by
      simp only [List.get?] at h
      have hrec := perm_cons_eraseIdx xs i a h
      exact (hrec.cons x).trans (List.Perm.swap a x (xs.eraseIdx i))

end ChoiceHelpers

namespace Router

/-- Nearest-neighbour package ordering is a permutation of its input,
given enough fuel. -/
theorem optimizePackageSequenceAux_perm (d : Point → Point → ℚ) :
    ∀ (fuel : ℕ) (current : Point) (remaining : List Package),
      remaining.length ≤ fuel →
      (optimizePackageSequenceAux d fuel current remaining).Perm remaining
  | 0, _, remaining, h => by
      have hc : remaining = [] := List.length_eq_zero.mp (Nat.le_zero.mp h)
      subst hc
      simp [optimizePackageSequenceAux]
  | fuel + 1, current, remaining, h => by
      unfold optimizePackageSequenceAux
      cases remaining with
      | nil => simp
      | cons p ps =>
          dsimp only
          set best := ps.foldl
            (fun acc q =>
              if d current q.destination < d current acc.destination then q
              else acc) p with hbestdef
          have hbest : best ∈ p :: ps :=
            foldl_choose_mem _ (by
              intro a b
              by_cases hab :
                  d current b.destination < d current a.destination <;>
                simp [hab]) ps p
          have hperm := List.perm_cons_erase hbest
          have hlen : ((p :: ps).erase best).length ≤ fuel := by
            have := List.length_erase_of_mem hbest
            simp only [this]
            simp only [List.length_cons] at h ⊢
            omega
          have ih := optimizePackageSequenceAux_perm d fuel best.destination
            ((p :: ps).erase best) hlen
          exact ((ih.cons best).trans hperm.symm)

/-- `optimize_package_sequence` returns a permutation of its input. -/
theorem optimize_package_sequence_perm (d : Point → Point → ℚ)
    (depot : Point) (packages : List Package) :
    (optimize_package_sequence d depot packages).Perm packages :=
  optimizePackageSequenceAux_perm d packages.length depot packages le_rfl

/-- A productive 2-opt scan strictly shortens the tour. -/
theorem twoOptPass_lt (d : Point → Point → ℚ) (depot : Point)
    (tour t2 : List Point) (h : twoOptPass d depot tour = some t2) :
    calculate_route_distance d depot t2 <
      calculate_route_distance d depot tour := by
  obtain ⟨ij, _hmem, hf⟩ := List.exists_of_findSome?_eq_some h
  dsimp only at hf
  split at hf
  next hlt =>
    cases hf
    exact hlt
  next => exact absurd hf (by simp)

/-- The 2-opt loop never lengthens the tour. -/
theorem two_opt_improvement_le (d : Point → Point → ℚ) (depot : Point) :
    ∀ (maxIterations : ℕ) (tour : List Point),
      calculate_route_distance d depot
        (two_opt_improvement d depot tour maxIterations) ≤
      calculate_route_distance d depot tour
  | 0, tour => le_rfl
  | maxIterations + 1, tour => by
      unfold two_opt_improvement
      cases hp : twoOptPass d depot tour with
      | none => exact le_rfl
      | some t2 =>
          have h1 := twoOptPass_lt d depot tour t2 hp
          have h2 := two_opt_improvement_le d depot maxIterations t2
          exact le_of_lt (lt_of_le_of_lt h2 h1)

end Router

namespace NeuralAgent

/-- The rollout pops one remaining package per step, producing a
permutation of the selection, given enough fuel. -/
theorem rolloutAux_perm (pick : ℕ → ℕ) :
    ∀ (fuel t : ℕ) (remaining : List Package),
      remaining.length ≤ fuel →
      (rolloutAux pick fuel t remaining).Perm remaining
  | 0, _, remaining, h => by
      have hc : remaining = [] := List.length_eq_zero.mp (Nat.le_zero.mp h)
      subst hc
      simp [rolloutAux]
  | fuel + 1, t, remaining, h => by
      unfold rolloutAux
      by_cases he : remaining.isEmpty
      · rw [if_pos he]
        have hc : remaining = [] := List.isEmpty_iff.mp he
        simp [hc]
      · rw [if_neg he]
        dsimp only
        have hlen : 0 < remaining.length := by
          cases remaining with
          | nil => simp at he
          | cons a as => simp
        cases hg : remaining.get? (pick t % remaining.length) with
        | none =>
            exfalso
            have hidx : pick t % remaining.length < remaining.length :=
              Nat.mod_lt _ hlen
            have := List.get?_eq_none.mp hg
            omega
        | some pkg =>
            have hperm := perm_cons_eraseIdx remaining _ pkg hg
            have hlen2 :
                (remaining.eraseIdx (pick t % remaining.length)).length ≤
                  fuel := by
              have hidx : pick t % remaining.length < remaining.length :=
                Nat.mod_lt _ hlen
              have := List.length_eraseIdx remaining
                (pick t % remaining.length)
              rw [if_pos hidx] at this
              omega
            have ih := rolloutAux_perm pick fuel (t + 1)
              (remaining.eraseIdx (pick t % remaining.length)) hlen2
            exact (ih.cons pkg).trans hperm.symm

/-- The policy rollout is a permutation of the selected packages. -/
theorem rollout_policy_perm (pick : ℕ → ℕ) (packages : List Package) :
    (rollout_policy pick packages).Perm packages :=
  rolloutAux_perm pick packages.length 0 packages le_rfl

/-- The planned order is a permutation of the selection, and the planned
stops are exactly the destinations of the planned order. -/
theorem train_and_plan_spec (d : Point → Point → ℚ) (depot : Point)
    (pick : ℕ → ℕ) (packages : List Package) :
    (train_and_plan d depot pick packages).1.Perm packages ∧
    (train_and_plan d depot pick packages).2 =
      (train_and_plan d depot pick packages).1.map Package.destination := by
  constructor
  · unfold train_and_plan
    by_cases he : (rollout_policy pick packages).isEmpty
    · simp only [he, if_true]
      exact Router.optimize_package_sequence_perm d depot packages
    · simp only [he, if_false]
      exact rollout_policy_perm pick packages
  · unfold train_and_plan
    by_cases he : (rollout_policy pick packages).isEmpty <;> simp [he]

/-- The greedy admission fold only emits elements of the scanned list or
of the starting accumulator. -/
theorem selectFold_subset (capacity : ℚ) :
    ∀ (l : List Package) (acc : List Package × ℚ),
      (l.foldl
        (fun (acc : List Package × ℚ) p =>
          if acc.2 + p.volume_m3 ≤ capacity + 1 / 1000000 then
            (acc.1 ++ [p], acc.2 + p.volume_m3)
          else acc)
        acc).1 ⊆ acc.1 ++ l
  | [], acc => by simp
  | p :: l, acc => by
      simp only [List.foldl_cons]
      by_cases hc : acc.2 + p.volume_m3 ≤ capacity + 1 / 1000000
      · rw [if_pos hc]
        intro x hx
        have hrec := selectFold_subset capacity l
          (acc.1 ++ [p], acc.2 + p.volume_m3) hx
        simp only [List.mem_append, List.mem_cons, List.mem_singleton]
          at hrec ⊢
        tauto
      · rw [if_neg hc]
        intro x hx
        have hrec := selectFold_subset capacity l acc hx
        simp only [List.mem_append, List.mem_cons] at hrec ⊢
        tauto

/-- The greedy admission fold keeps its running volume equal to the volume
of the admitted packages and within the slacked capacity whenever anything
was admitted. -/
theorem selectFold_sum (capacity : ℚ) :
    ∀ (l : List Package) (acc : List Package × ℚ),
      acc.2 = (acc.1.map Package.volume_m3).sum →
      (acc.1 = [] ∨ acc.2 ≤ capacity + 1 / 1000000) →
      (l.foldl
        (fun (acc : List Package × ℚ) p =>
          if acc.2 + p.volume_m3 ≤ capacity + 1 / 1000000 then
            (acc.1 ++ [p], acc.2 + p.volume_m3)
          else acc)
        acc).2 =
        (((l.foldl
          (fun (acc : List Package × ℚ) p =>
            if acc.2 + p.volume_m3 ≤ capacity + 1 / 1000000 then
              (acc.1 ++ [p], acc.2 + p.volume_m3)
            else acc)
          acc).1).map Package.volume_m3).sum ∧
      ((l.foldl
        (fun (acc : List Package × ℚ) p =>
          if acc.2 + p.volume_m3 ≤ capacity + 1 / 1000000 then
            (acc.1 ++ [p], acc.2 + p.volume_m3)
          else acc)
        acc).1 = [] ∨
        (l.foldl
          (fun (acc : List Package × ℚ) p =>
            if acc.2 + p.volume_m3 ≤ capacity + 1 / 1000000 then
              (acc.1 ++ [p], acc.2 + p.volume_m3)
            else acc)
          acc).2 ≤ capacity + 1 / 1000000)
  | [], acc, hsum, hle => ⟨hsum, hle⟩
  | p :: l, acc, hsum, hle => by
      simp only [List.foldl_cons]
      by_cases hc : acc.2 + p.volume_m3 ≤ capacity + 1 / 1000000
      · rw [if_pos hc]
        refine selectFold_sum capacity l (acc.1 ++ [p], acc.2 + p.volume_m3)
          ?_ (Or.inr hc)
        simp [hsum]
      · rw [if_neg hc]
        exact selectFold_sum capacity l acc hsum hle

/-- Every selected package comes from the candidate pool and individually
fits the vehicle. -/
theorem mem_select (veh : Vehicle) (cands : List Package) (p : Package)
    (hp : p ∈ select_packages_for_vehicle veh cands) :
    p ∈ cands ∧ p.volume_m3 ≤ veh.vehicle_type.capacity_m3 := by
  have key : ∀ q : Package,
      q ∈ (cands.filter fun x =>
        decide (x.volume_m3 ≤ veh.vehicle_type.capacity_m3)) →
      q ∈ cands ∧ q.volume_m3 ≤ veh.vehicle_type.capacity_m3 := by
    intro q hq
    obtain ⟨hq1, hq2⟩ := List.mem_filter.mp hq
    exact ⟨hq1, of_decide_eq_true hq2⟩
  unfold select_packages_for_vehicle at hp
  dsimp only at hp
  split at hp
  · split at hp
    next heq =>
        have hs := selectFold_subset veh.vehicle_type.capacity_m3 _ ([], 0) hp
        simp only [List.nil_append] at hs
        exact key p ((List.mem_insertionSort _).mp hs)
    next q rest heq =>
        have hq : p = q := by simpa using hp
        subst hq
        have : p ∈ (cands.filter fun x =>
            decide (x.volume_m3 ≤ veh.vehicle_type.capacity_m3)).insertionSort
            fun x y => y.payment / pymax y.volume_m3 (1 / 100) ≤
              x.payment / pymax x.volume_m3 (1 / 100) := by
          rw [heq]
          simp
        exact key p ((List.mem_insertionSort _).mp this)
  · have hs := selectFold_subset veh.vehicle_type.capacity_m3 _ ([], 0) hp
    simp only [List.nil_append] at hs
    exact key p ((List.mem_insertionSort _).mp hs)

/-- The selection is empty or keeps its total volume within the vehicle
capacity plus the 1e-6 admission slack of the source. -/
theorem select_cases (veh : Vehicle) (cands : List Package) :
    select_packages_for_vehicle veh cands = [] ∨
    ((select_packages_for_vehicle veh cands).map Package.volume_m3).sum ≤
      veh.vehicle_type.capacity_m3 + 1 / 1000000 := by
  have heps : (0 : ℚ) < 1 / 1000000 := by norm_num
  unfold select_packages_for_vehicle
  dsimp only
  split
  next hsel =>
    split
    next heq => exact Or.inl (List.isEmpty_iff.mp hsel)
    next q rest heq =>
      refine Or.inr ?_
      have hq : q ∈ (cands.filter fun x =>
          decide (x.volume_m3 ≤ veh.vehicle_type.capacity_m3)).insertionSort
          fun x y => y.payment / pymax y.volume_m3 (1 / 100) ≤
            x.payment / pymax x.volume_m3 (1 / 100) := by
        rw [heq]
        simp
      have hq2 := List.mem_filter.mp ((List.mem_insertionSort _).mp hq)
      have hq3 : q.volume_m3 ≤ veh.vehicle_type.capacity_m3 :=
        of_decide_eq_true hq2.2
      simp only [List.map_cons, List.map_nil, List.sum_cons, List.sum_nil]
      linarith
  next hsel =>
    refine Or.inr ?_
    have hs := selectFold_sum veh.vehicle_type.capacity_m3
      ((cands.filter fun x =>
        decide (x.volume_m3 ≤ veh.vehicle_type.capacity_m3)).insertionSort
        fun x y => y.payment / pymax y.volume_m3 (1 / 100) ≤
          x.payment / pymax x.volume_m3 (1 / 100))
      ([], 0) (by simp) (Or.inl rfl)
    rcases hs.2 with hnil | hle
    · exfalso
      apply hsel
      rw [hnil]
      rfl
    · rw [← hs.1]
      exact hle

/-- A nonempty selection keeps its total volume within the vehicle
capacity plus the 1e-6 admission slack of the source. -/
theorem select_volume_le (veh : Vehicle) (cands : List Package)
    (hne : select_packages_for_vehicle veh cands ≠ []) :
    ((select_packages_for_vehicle veh cands).map Package.volume_m3).sum ≤
      veh.vehicle_type.capacity_m3 + 1 / 1000000 := by
  rcases select_cases veh cands with h | h
  · exact absurd h hne
  · exact h

/-- Master invariant of the per-vehicle loop of the neural agent: any
route property that holds for every route made of a fleet vehicle, an
ordering of a nonempty selection from some candidate pool, and the
destinations of that ordering as stops, is carried to every returned
route. -/
theorem planRoutesGo_ind (d : Point → Point → ℚ) (depot : Point)
    (pick : ℕ → ℕ → ℕ) (Q : Route → Prop) (fleet0 : List Vehicle)
    (hQ : ∀ veh ∈ fleet0, ∀ (remaining ordered : List Package),
      ordered.Perm (select_packages_for_vehicle veh remaining) →
      select_packages_for_vehicle veh remaining ≠ [] →
      Q { vehicle := veh, packages := ordered,
          stops := ordered.map Package.destination }) :
    ∀ (fleet : List Vehicle) (k : ℕ) (remaining : List Package)
      (routes : List Route),
      fleet ⊆ fleet0 → (∀ r ∈ routes, Q r) →
      ∀ r ∈ planRoutesGo d depot pick k fleet remaining routes, Q r
  | [], _, _, _, _, hr => hr
  | veh :: rest, k, remaining, routes, hsub, hr => by
      unfold planRoutesGo
      by_cases hsel : (select_packages_for_vehicle veh remaining).isEmpty
      · rw [if_pos hsel]
        exact planRoutesGo_ind d depot pick Q fleet0 hQ rest (k + 1) remaining
          routes (fun x hx => hsub (List.mem_cons_of_mem veh hx)) hr
      · rw [if_neg hsel]
        dsimp only
        have hne : select_packages_for_vehicle veh remaining ≠ [] := by
          intro hnil
          exact hsel (by simp [hnil])
        have hveh : veh ∈ fleet0 := hsub (List.mem_cons_self veh rest)
        have htp := train_and_plan_spec d depot (pick k)
          (select_packages_for_vehicle veh remaining)
        refine planRoutesGo_ind d depot pick Q fleet0 hQ rest (k + 1) _ _
          (fun x hx => hsub (List.mem_cons_of_mem veh hx)) ?_
        intro r hrm
        rcases List.mem_append.mp hrm with h1 | h2
        · exact hr r h1
        · rw [List.mem_singleton.mp h2]
          split
          · exact hQ veh hveh remaining _
              (Router.optimize_package_sequence_perm d depot _) hne
          · rw [htp.2]
            exact hQ veh hveh remaining _ htp.1 hne

end NeuralAgent

/-!
Claim theorems.  Each claim of the specification is settled below; closed
instances use the `absDist` oracle at inputs whose outcome does not depend
on the oracle.
-/

/-- C1 (counterexample): the capacity invariant fails on the code in two
ways.  RAgent from agents/agent_r.py seeds each cluster with a box whose
volume is never checked, so one package of volume 11 and one vehicle of
capacity 10 yield a returned route of volume 11, exceeding the capacity.
The neural agent (agents/agent_r_neural.py) admits packages while the
cumulative volume stays within capacity plus 1e-6, and its invalid-route
fallback reuses the same selection, so two packages of volumes 5 and
5 + 1/2000000 against capacity 10 yield a returned route of volume
10 + 1/2000000, exceeding the capacity (within the slack) — this attained
overshoot forces the 1e-6 allowance in the amended claim.  At these
inputs every forced comparison is strict, so the outcome does not depend
on the distance oracle. -/
theorem C1_capacity_counterexample :
    (AgentR.plan_routes absDist ((0 : ℚ), (0 : ℚ))
      [⟨"p1", ((5 : ℚ), (0 : ℚ)), 11, 60⟩]
      [⟨"v1", ⟨"Test Van", 10, 1, 20000, 300⟩, 0⟩] =
    [{ vehicle := ⟨"v1", ⟨"Test Van", 10, 1, 20000, 300⟩, 0⟩,
       packages := [⟨"p1", ((5 : ℚ), (0 : ℚ)), 11, 60⟩],
       stops := [((0 : ℚ), (0 : ℚ)), ((5 : ℚ), (0 : ℚ)), ((0 : ℚ), (0 : ℚ))] }] ∧
    ({ vehicle := ⟨"v1", ⟨"Test Van", 10, 1, 20000, 300⟩, 0⟩,
       packages := [⟨"p1", ((5 : ℚ), (0 : ℚ)), 11, 60⟩],
       stops := [((0 : ℚ), (0 : ℚ)), ((5 : ℚ), (0 : ℚ)), ((0 : ℚ), (0 : ℚ))] } :
       Route).vehicle.vehicle_type.capacity_m3 <
      routeVolume
        { vehicle := ⟨"v1", ⟨"Test Van", 10, 1, 20000, 300⟩, 0⟩,
          packages := [⟨"p1", ((5 : ℚ), (0 : ℚ)), 11, 60⟩],
          stops := [((0 : ℚ), (0 : ℚ)), ((5 : ℚ), (0 : ℚ)),
            ((0 : ℚ), (0 : ℚ))] }) ∧
    (NeuralAgent.plan_routes absDist ((0 : ℚ), (0 : ℚ)) (fun _ _ => 0)
      [⟨"pa", ((1 : ℚ), (0 : ℚ)), 5, 100⟩,
       ⟨"pb", ((2 : ℚ), (0 : ℚ)), 10000001 / 2000000, 50⟩]
      [⟨"v1", ⟨"Test Van", 10, 1, 20000, 300⟩, 0⟩] =
    [{ vehicle := ⟨"v1", ⟨"Test Van", 10, 1, 20000, 300⟩, 0⟩,
       packages := [⟨"pa", ((1 : ℚ), (0 : ℚ)), 5, 100⟩,
         ⟨"pb", ((2 : ℚ), (0 : ℚ)), 10000001 / 2000000, 50⟩],
       stops := [((1 : ℚ), (0 : ℚ)), ((2 : ℚ), (0 : ℚ))] }] ∧
    ({ vehicle := ⟨"v1", ⟨"Test Van", 10, 1, 20000, 300⟩, 0⟩,
       packages := [⟨"pa", ((1 : ℚ), (0 : ℚ)), 5, 100⟩,
         ⟨"pb", ((2 : ℚ), (0 : ℚ)), 10000001 / 2000000, 50⟩],
       stops := [((1 : ℚ), (0 : ℚ)), ((2 : ℚ), (0 : ℚ))] } :
       Route).vehicle.vehicle_type.capacity_m3 <
      routeVolume
        { vehicle := ⟨"v1", ⟨"Test Van", 10, 1, 20000, 300⟩, 0⟩,
          packages := [⟨"pa", ((1 : ℚ), (0 : ℚ)), 5, 100⟩,
            ⟨"pb", ((2 : ℚ), (0 : ℚ)), 10000001 / 2000000, 50⟩],
          stops := [((1 : ℚ), (0 : ℚ)), ((2 : ℚ), (0 : ℚ))] }) := by
  refine ⟨⟨rfl, ?_⟩, ⟨by with_unfolding_all rfl, ?_⟩⟩
  · norm_num [routeVolume]
  · norm_num [routeVolume]

/-- C1 (amended): the capacity invariant holds for RAgent (agents/
agent_r.py) whenever every input package individually fits every fleet
vehicle (hypothesis of the first conjunct only), and the neural agent
keeps every returned route within the vehicle capacity plus its 1e-6
admission slack unconditionally — on all inputs, oversized packages
included.  A package larger than its vehicle breaks the plain invariant
for RAgent and the slack is attained by the neural agent (see the
counterexample); the duplicated assignment of agents/agent_r_old.py
additionally breaks it and is recorded under C2. -/
theorem C1_capacity_amended (d : Point → Point → ℚ) (dm : Point)
    (pick : ℕ → ℕ → ℕ) (packages : List Package) (fleet : List Vehicle) :
    ((∀ p ∈ packages, ∀ v ∈ fleet,
        p.volume_m3 ≤ v.vehicle_type.capacity_m3) →
      ∀ r ∈ AgentR.plan_routes d dm packages fleet,
        routeVolume r ≤ r.vehicle.vehicle_type.capacity_m3) ∧
    (∀ r ∈ NeuralAgent.plan_routes d dm pick packages fleet,
      routeVolume r ≤ r.vehicle.vehicle_type.capacity_m3 + 1 / 1000000) := by
  constructor
  · intro hfit r hr
    unfold AgentR.plan_routes AgentR.plan_routes_st at hr
    by_cases hv : validate_inputs packages fleet
    · simp only [hv, Bool.not_true, Bool.false_eq_true, if_false] at hr
      refine AgentR.clusters_all_routes_ind d dm
        (fun r => routeVolume r ≤ r.vehicle.vehicle_type.capacity_m3)
        packages fleet ?_ packages.length _ (fun x hx => hx) ?_ (by simp)
        r hr
      · intro veh hveh b hb boxes2 _hsub
        have hspec := AgentR.greedy_cluster_spec d veh
          (AgentR.find_cluster veh b boxes2)
        have hvol := AgentR.find_cluster_volume_le veh b boxes2
          (hfit b hb veh hveh)
        rw [routeVolume, hspec.1,
          (hspec.2.1.map Package.volume_m3).sum_eq]
        exact hvol
      · intro x hx
        exact (List.mem_insertionSort _).mp hx
    · simp [hv] at hr
  · intro r hr
    unfold NeuralAgent.plan_routes at hr
    by_cases hv : validate_inputs packages fleet
    · simp only [hv, Bool.not_true, Bool.false_eq_true, if_false] at hr
      refine NeuralAgent.planRoutesGo_ind d dm pick
        (fun r => routeVolume r ≤ r.vehicle.vehicle_type.capacity_m3 +
          1 / 1000000)
        fleet ?_ fleet 0 packages [] (fun x hx => hx) (by simp) r hr
      intro veh _hveh remaining ordered hperm hne
      rw [routeVolume]
      dsimp only
      rw [(hperm.map Package.volume_m3).sum_eq]
      exact NeuralAgent.select_volume_le veh remaining hne
    · simp [hv] at hr

/-- Witness for C1 (amended): the first conjunct at one fitting package
(volume 2) against capacity 10, whose returned route respects the
capacity; the second conjunct at the slack-overflow input of the
counterexample (an input the fit hypothesis excludes), whose returned
route of volume 10 + 1/2000000 stays within capacity plus 1e-6. -/
theorem C1_capacity_amended_witness :
    (routeVolume
      { vehicle := ⟨"v1", ⟨"Test Van", 10, 1, 20000, 300⟩, 0⟩,
        packages := [⟨"p1", ((3 : ℚ), (4 : ℚ)), 2, 50⟩],
        stops := [((0 : ℚ), (0 : ℚ)), ((3 : ℚ), (4 : ℚ)), ((0 : ℚ), (0 : ℚ))] } ≤
    ({ vehicle := ⟨"v1", ⟨"Test Van", 10, 1, 20000, 300⟩, 0⟩,
       packages := [⟨"p1", ((3 : ℚ), (4 : ℚ)), 2, 50⟩],
       stops := [((0 : ℚ), (0 : ℚ)), ((3 : ℚ), (4 : ℚ)), ((0 : ℚ), (0 : ℚ))] } :
       Route).vehicle.vehicle_type.capacity_m3) ∧
    (routeVolume
      { vehicle := ⟨"v1", ⟨"Test Van", 10, 1, 20000, 300⟩, 0⟩,
        packages := [⟨"pa", ((1 : ℚ), (0 : ℚ)), 5, 100⟩,
          ⟨"pb", ((2 : ℚ), (0 : ℚ)), 10000001 / 2000000, 50⟩],
        stops := [((1 : ℚ), (0 : ℚ)), ((2 : ℚ), (0 : ℚ))] } ≤
    ({ vehicle := ⟨"v1", ⟨"Test Van", 10, 1, 20000, 300⟩, 0⟩,
       packages := [⟨"pa", ((1 : ℚ), (0 : ℚ)), 5, 100⟩,
         ⟨"pb", ((2 : ℚ), (0 : ℚ)), 10000001 / 2000000, 50⟩],
       stops := [((1 : ℚ), (0 : ℚ)), ((2 : ℚ), (0 : ℚ))] } :
       Route).vehicle.vehicle_type.capacity_m3 + 1 / 1000000) := by
  have hplanA : AgentR.plan_routes absDist ((0 : ℚ), (0 : ℚ))
      [⟨"p1", ((3 : ℚ), (4 : ℚ)), 2, 50⟩]
      [⟨"v1", ⟨"Test Van", 10, 1, 20000, 300⟩, 0⟩] =
      [{ vehicle := ⟨"v1", ⟨"Test Van", 10, 1, 20000, 300⟩, 0⟩,
         packages := [⟨"p1", ((3 : ℚ), (4 : ℚ)), 2, 50⟩],
         stops := [((0 : ℚ), (0 : ℚ)), ((3 : ℚ), (4 : ℚ)),
           ((0 : ℚ), (0 : ℚ))] }] := rfl
  have hplanN : NeuralAgent.plan_routes absDist ((0 : ℚ), (0 : ℚ))
      (fun _ _ => 0)
      [⟨"pa", ((1 : ℚ), (0 : ℚ)), 5, 100⟩,
       ⟨"pb", ((2 : ℚ), (0 : ℚ)), 10000001 / 2000000, 50⟩]
      [⟨"v1", ⟨"Test Van", 10, 1, 20000, 300⟩, 0⟩] =
      [{ vehicle := ⟨"v1", ⟨"Test Van", 10, 1, 20000, 300⟩, 0⟩,
         packages := [⟨"pa", ((1 : ℚ), (0 : ℚ)), 5, 100⟩,
           ⟨"pb", ((2 : ℚ), (0 : ℚ)), 10000001 / 2000000, 50⟩],
         stops := [((1 : ℚ), (0 : ℚ)), ((2 : ℚ), (0 : ℚ))] }] := by
    with_unfolding_all rfl
  constructor
  · refine (C1_capacity_amended absDist ((0 : ℚ), (0 : ℚ)) (fun _ _ => 0)
      [⟨"p1", ((3 : ℚ), (4 : ℚ)), 2, 50⟩]
      [⟨"v1", ⟨"Test Van", 10, 1, 20000, 300⟩, 0⟩]).1 ?_ _ ?_
    · intro p hp v hv
      rw [List.mem_singleton] at hp hv
      subst hp
      subst hv
      norm_num
    · rw [hplanA]
      exact List.mem_singleton_self _
  · refine (C1_capacity_amended absDist ((0 : ℚ), (0 : ℚ)) (fun _ _ => 0)
      [⟨"pa", ((1 : ℚ), (0 : ℚ)), 5, 100⟩,
       ⟨"pb", ((2 : ℚ), (0 : ℚ)), 10000001 / 2000000, 50⟩]
      [⟨"v1", ⟨"Test Van", 10, 1, 20000, 300⟩, 0⟩]).2 _ ?_
    rw [hplanN]
    exact List.mem_singleton_self _

/-- C6: for every route returned by RAgent (agents/agent_r.py), by the old
RAgent (agents/agent_r_old.py) when it returns at all, and by the neural
agent (agents/agent_r_neural.py) under any policy chooser, the destination
of every carried package occurs among the route stops. -/
theorem C6_destination_in_stops (d : Point → Point → ℚ) (dm : Point)
    (pick : ℕ → ℕ → ℕ) (packages : List Package) (fleet : List Vehicle) :
    (∀ r ∈ AgentR.plan_routes d dm packages fleet, ∀ p ∈ r.packages,
      p.destination ∈ r.stops) ∧
    (∀ routes : List Route, AgentROld.plan_routes packages fleet = .ok routes →
      ∀ r ∈ routes, ∀ p ∈ r.packages, p.destination ∈ r.stops) ∧
    (∀ r ∈ NeuralAgent.plan_routes d dm pick packages fleet, ∀ p ∈ r.packages,
      p.destination ∈ r.stops) := by
  refine ⟨?_, ?_, ?_⟩
  · intro r hr
    unfold AgentR.plan_routes AgentR.plan_routes_st at hr
    by_cases hv : validate_inputs packages fleet
    · simp only [hv, Bool.not_true, Bool.false_eq_true, if_false] at hr
      refine AgentR.clusters_all_routes_ind d dm
        (fun r => ∀ p ∈ r.packages, p.destination ∈ r.stops)
        packages fleet ?_ packages.length _ (fun x hx => hx)
        (fun x hx => (List.mem_insertionSort _).mp hx) (by simp) r hr
      intro veh _hveh b _hb boxes2 _hsub q hq
      have hspec := AgentR.greedy_cluster_spec d veh
        (AgentR.find_cluster veh b boxes2)
      rw [hspec.2.2]
      simp only [List.mem_append, List.mem_cons]
      exact Or.inl (Or.inr (List.mem_map_of_mem Package.destination hq))
    · simp [hv] at hr
  · intro routes hok r hr p hp
    unfold AgentROld.plan_routes at hok
    by_cases hemp : packages.isEmpty
    · rw [if_pos hemp] at hok
      cases hok
      simp at hr
    · rw [if_neg hemp] at hok
      cases hfl : fleet.getLast? with
      | none =>
          rw [hfl] at hok
          simp at hok
      | some v =>
          rw [hfl] at hok
          cases hok
          obtain ⟨b, _hb, rfl⟩ := List.mem_map.mp hr
          have hpb := List.eq_of_mem_replicate hp
          subst hpb
          have hn : fleet.length ≠ 0 := by
            intro h0
            rw [List.length_eq_zero.mp h0] at hfl
            simp at hfl
          exact List.mem_replicate.mpr ⟨hn, rfl⟩
  · intro r hr
    unfold NeuralAgent.plan_routes at hr
    by_cases hv : validate_inputs packages fleet
    · simp only [hv, Bool.not_true, Bool.false_eq_true, if_false] at hr
      refine NeuralAgent.planRoutesGo_ind d dm pick
        (fun r => ∀ p ∈ r.packages, p.destination ∈ r.stops)
        fleet ?_ fleet 0 packages [] (fun x hx => hx) (by simp) r hr
      intro veh _hveh remaining ordered _hperm _hne q hq
      exact List.mem_map_of_mem Package.destination hq
    · simp [hv] at hr

/-- Witness for C6 at one package and one vehicle, on the route returned
by RAgent: the package destination occurs among the stops. -/
theorem C6_destination_in_stops_witness :
    (⟨"p1", ((3 : ℚ), (4 : ℚ)), 2, 50⟩ : Package).destination ∈
      ({ vehicle := ⟨"v1", ⟨"Test Van", 10, 1, 20000, 300⟩, 0⟩,
         packages := [⟨"p1", ((3 : ℚ), (4 : ℚ)), 2, 50⟩],
         stops := [((0 : ℚ), (0 : ℚ)), ((3 : ℚ), (4 : ℚ)),
           ((0 : ℚ), (0 : ℚ))] } : Route).stops := by
  have hplan : AgentR.plan_routes absDist ((0 : ℚ), (0 : ℚ))
      [⟨"p1", ((3 : ℚ), (4 : ℚ)), 2, 50⟩]
      [⟨"v1", ⟨"Test Van", 10, 1, 20000, 300⟩, 0⟩] =
      [{ vehicle := ⟨"v1", ⟨"Test Van", 10, 1, 20000, 300⟩, 0⟩,
         packages := [⟨"p1", ((3 : ℚ), (4 : ℚ)), 2, 50⟩],
         stops := [((0 : ℚ), (0 : ℚ)), ((3 : ℚ), (4 : ℚ)),
           ((0 : ℚ), (0 : ℚ))] }] := rfl
  refine (C6_destination_in_stops absDist ((0 : ℚ), (0 : ℚ)) (fun _ _ => 0)
    [⟨"p1", ((3 : ℚ), (4 : ℚ)), 2, 50⟩]
    [⟨"v1", ⟨"Test Van", 10, 1, 20000, 300⟩, 0⟩]).1 _ ?_ _ ?_
  · rw [hplan]
    exact List.mem_singleton_self _
  · exact List.mem_singleton_self _

/-- C7 (counterexample): unassigned packages are not reported in the
returned value.  The neural agent, given a single package of volume 11 and
a single vehicle of capacity 10, leaves the package unassigned and returns
the bare empty route list; the returned value is the route list alone and
carries no unassigned set or other signal (the source only prints a
warning to stdout). -/
theorem C7_unassigned_counterexample :
    NeuralAgent.plan_routes absDist ((0 : ℚ), (0 : ℚ)) (fun _ _ => 0)
      [⟨"p1", ((5 : ℚ), (0 : ℚ)), 11, 60⟩]
      [⟨"v1", ⟨"Test Van", 10, 1, 20000, 300⟩, 0⟩] = [] := rfl

/-- C7 (amended): a package that fits no fleet vehicle is silently
omitted from the returned plan: it appears in no returned route of the
neural agent, and nothing else is returned (the only reporting is a
stdout print in the source). -/
theorem C7_unassigned_amended (d : Point → Point → ℚ) (depot : Point)
    (pick : ℕ → ℕ → ℕ) (packages : List Package) (fleet : List Vehicle)
    (p : Package) (_hp : p ∈ packages)
    (hbig : ∀ v ∈ fleet, v.vehicle_type.capacity_m3 < p.volume_m3) :
    ∀ r ∈ NeuralAgent.plan_routes d depot pick packages fleet,
      p ∉ r.packages := by
  intro r hr
  unfold NeuralAgent.plan_routes at hr
  by_cases hv : validate_inputs packages fleet
  · simp only [hv, Bool.not_true, Bool.false_eq_true, if_false] at hr
    refine NeuralAgent.planRoutesGo_ind d depot pick
      (fun r => p ∉ r.packages)
      fleet ?_ fleet 0 packages [] (fun x hx => hx) (by simp) r hr
    intro veh hveh remaining ordered hperm _hne hmem
    have hsel : p ∈ NeuralAgent.select_packages_for_vehicle veh remaining :=
      hperm.mem_iff.mp hmem
    have := (NeuralAgent.mem_select veh remaining p hsel).2
    have := hbig veh hveh
    linarith
  · simp [hv] at hr

/-- Witness for C7 (amended): with one oversized and one fitting package,
the oversized one is absent from the single returned route. -/
theorem C7_unassigned_amended_witness :
    (⟨"big", ((9 : ℚ), (9 : ℚ)), 11, 80⟩ : Package) ∉
      ({ vehicle := ⟨"v1", ⟨"Test Van", 10, 1, 20000, 300⟩, 0⟩,
         packages := [⟨"small", ((3 : ℚ), (4 : ℚ)), 2, 40⟩],
         stops := [((3 : ℚ), (4 : ℚ))] } : Route).packages := by
  have hplan : NeuralAgent.plan_routes absDist ((0 : ℚ), (0 : ℚ))
      (fun _ _ => 0)
      [⟨"big", ((9 : ℚ), (9 : ℚ)), 11, 80⟩,
       ⟨"small", ((3 : ℚ), (4 : ℚ)), 2, 40⟩]
      [⟨"v1", ⟨"Test Van", 10, 1, 20000, 300⟩, 0⟩] =
      [{ vehicle := ⟨"v1", ⟨"Test Van", 10, 1, 20000, 300⟩, 0⟩,
         packages := [⟨"small", ((3 : ℚ), (4 : ℚ)), 2, 40⟩],
         stops := [((3 : ℚ), (4 : ℚ))] }] := by with_unfolding_all rfl
  refine C7_unassigned_amended absDist ((0 : ℚ), (0 : ℚ)) (fun _ _ => 0)
    [⟨"big", ((9 : ℚ), (9 : ℚ)), 11, 80⟩,
     ⟨"small", ((3 : ℚ), (4 : ℚ)), 2, 40⟩]
    [⟨"v1", ⟨"Test Van", 10, 1, 20000, 300⟩, 0⟩]
    ⟨"big", ((9 : ℚ), (9 : ℚ)), 11, 80⟩
    (List.mem_cons_self _ _) ?_ _ ?_
  · intro v hv
    rw [List.mem_singleton] at hv
    subst hv
    norm_num
  · rw [hplan]
    exact List.mem_singleton_self _

/-- C9 (counterexample): routes do not start and end at the map depot.
The old RAgent (agents/agent_r_old.py) returns a route whose stop list
holds only the package destination (5, 7), so with the game depot (0, 0)
the stop sequence neither starts nor ends at the depot.  The neural agent
builds its stop lists the same way (destinations only). -/
theorem C9_depot_counterexample :
    AgentROld.plan_routes [⟨"p1", ((5 : ℚ), (7 : ℚ)), 2, 50⟩]
      [⟨"v1", ⟨"Test Van", 10, 1, 20000, 300⟩, 0⟩] =
    .ok [{ vehicle := ⟨"v1", ⟨"Test Van", 10, 1, 20000, 300⟩, 0⟩,
           packages := [⟨"p1", ((5 : ℚ), (7 : ℚ)), 2, 50⟩],
           stops := [((5 : ℚ), (7 : ℚ))] }] ∧
    ({ vehicle := ⟨"v1", ⟨"Test Van", 10, 1, 20000, 300⟩, 0⟩,
       packages := [⟨"p1", ((5 : ℚ), (7 : ℚ)), 2, 50⟩],
       stops := [((5 : ℚ), (7 : ℚ))] } : Route).stops.head? ≠
      some ((0 : ℚ), (0 : ℚ)) := by
  refine ⟨rfl, ?_⟩
  simp only [List.head?_cons, ne_eq, Option.some.injEq, Prod.mk.injEq]
  norm_num

/-- C9 (amended): every route returned by RAgent (agents/agent_r.py) has
a stop sequence that starts and ends at the hardcoded depot (0, 0), the
default argument of `greedy_cluster` — this agrees with the delivery map
depot exactly when that depot is (0, 0) (the bundled map data); the old
and neural agents return only destination stops, with the depot legs
accounted only in distance computations. -/
theorem C9_depot_amended (d : Point → Point → ℚ) (dm : Point)
    (packages : List Package) (fleet : List Vehicle) :
    ∀ r ∈ AgentR.plan_routes d dm packages fleet,
      r.stops.head? = some ((0 : ℚ), (0 : ℚ)) ∧
      r.stops.getLast? = some ((0 : ℚ), (0 : ℚ)) := by
  intro r hr
  unfold AgentR.plan_routes AgentR.plan_routes_st at hr
  by_cases hv : validate_inputs packages fleet
  · simp only [hv, Bool.not_true, Bool.false_eq_true, if_false] at hr
    refine AgentR.clusters_all_routes_ind d dm
      (fun r => r.stops.head? = some ((0 : ℚ), (0 : ℚ)) ∧
        r.stops.getLast? = some ((0 : ℚ), (0 : ℚ)))
      packages fleet ?_ packages.length _ (fun x hx => hx)
      (fun x hx => (List.mem_insertionSort _).mp hx) (by simp) r hr
    intro veh _hveh b _hb boxes2 _hsub
    have hspec := AgentR.greedy_cluster_spec d veh
      (AgentR.find_cluster veh b boxes2)
    rw [hspec.2.2]
    constructor
    · rfl
    · exact List.getLast?_concat _
  · simp [hv] at hr

/-- Witness for C9 (amended) on the route returned by RAgent for one
package and one vehicle. -/
theorem C9_depot_amended_witness :
    ({ vehicle := ⟨"v1", ⟨"Test Van", 10, 1, 20000, 300⟩, 0⟩,
       packages := [⟨"p1", ((3 : ℚ), (4 : ℚ)), 2, 50⟩],
       stops := [((0 : ℚ), (0 : ℚ)), ((3 : ℚ), (4 : ℚ)),
         ((0 : ℚ), (0 : ℚ))] } : Route).stops.head? =
      some ((0 : ℚ), (0 : ℚ)) := by
  have hplan : AgentR.plan_routes absDist ((0 : ℚ), (0 : ℚ))
      [⟨"p1", ((3 : ℚ), (4 : ℚ)), 2, 50⟩]
      [⟨"v1", ⟨"Test Van", 10, 1, 20000, 300⟩, 0⟩] =
      [{ vehicle := ⟨"v1", ⟨"Test Van", 10, 1, 20000, 300⟩, 0⟩,
         packages := [⟨"p1", ((3 : ℚ), (4 : ℚ)), 2, 50⟩],
         stops := [((0 : ℚ), (0 : ℚ)), ((3 : ℚ), (4 : ℚ)),
           ((0 : ℚ), (0 : ℚ))] }] := rfl
  refine (C9_depot_amended absDist ((0 : ℚ), (0 : ℚ))
    [⟨"p1", ((3 : ℚ), (4 : ℚ)), 2, 50⟩]
    [⟨"v1", ⟨"Test Van", 10, 1, 20000, 300⟩, 0⟩] _ ?_).1
  rw [hplan]
  exact List.mem_singleton_self _

/-- C2 (code bug): the old RAgent (agents/agent_r_old.py) violates the
at-most-once assignment rule.  Its loop appends the package once per fleet
vehicle before building a single route, so with one package and two
vehicles the returned plan carries the package twice inside one route
(and attaches the route to the last vehicle only): the package is
assigned twice in the whole returned plan.  The current RAgent and the
neural agent do deduplicate (their routes partition removed packages),
so the claim describes the clear intent and this file is a slip. -/
theorem C2_agent_r_old_duplicate_assignment :
    AgentROld.plan_routes [⟨"p1", ((5 : ℚ), (7 : ℚ)), 6, 60⟩]
      [⟨"v1", ⟨"Van", 10, 1, 20000, 300⟩, 0⟩,
       ⟨"v2", ⟨"Van", 10, 1, 20000, 300⟩, 0⟩] =
    .ok [{ vehicle := ⟨"v2", ⟨"Van", 10, 1, 20000, 300⟩, 0⟩,
           packages := [⟨"p1", ((5 : ℚ), (7 : ℚ)), 6, 60⟩,
             ⟨"p1", ((5 : ℚ), (7 : ℚ)), 6, 60⟩],
           stops := [((5 : ℚ), (7 : ℚ)), ((5 : ℚ), (7 : ℚ))] }] ∧
    ({ vehicle := ⟨"v2", ⟨"Van", 10, 1, 20000, 300⟩, 0⟩,
       packages := [⟨"p1", ((5 : ℚ), (7 : ℚ)), 6, 60⟩,
         ⟨"p1", ((5 : ℚ), (7 : ℚ)), 6, 60⟩],
       stops := [((5 : ℚ), (7 : ℚ)), ((5 : ℚ), (7 : ℚ))] } : Route).packages.count
      ⟨"p1", ((5 : ℚ), (7 : ℚ)), 6, 60⟩ = 2 := by
  exact ⟨rfl, rfl⟩

/-- C3 (code bug): on empty inputs the agents guarded by
`validate_inputs` (agents/agent_r.py, agents/agent_r_neural.py) return
the empty route list, but the old RAgent (agents/agent_r_old.py) has no
guard: with a nonempty package list and an empty fleet its loop variable
`v` is never bound and the route construction raises UnboundLocalError
instead of returning the empty list; with an empty package list it does
return the empty list. -/
theorem C3_empty_input_behaviour :
    AgentROld.plan_routes [⟨"p1", ((5 : ℚ), (7 : ℚ)), 2, 50⟩] [] =
      .error "UnboundLocalError: local variable v referenced before assignment" ∧
    AgentROld.plan_routes [] [] = .ok [] ∧
    AgentR.plan_routes absDist ((0 : ℚ), (0 : ℚ)) []
      [⟨"v1", ⟨"Test Van", 10, 1, 20000, 300⟩, 0⟩] = [] ∧
    AgentR.plan_routes absDist ((0 : ℚ), (0 : ℚ))
      [⟨"p1", ((5 : ℚ), (7 : ℚ)), 2, 50⟩] [] = [] ∧
    NeuralAgent.plan_routes absDist ((0 : ℚ), (0 : ℚ)) (fun _ _ => 0) [] [] =
      [] := by
  exact ⟨rfl, rfl, rfl, rfl, rfl⟩

/-- C4: for every stop ordering, every iteration cap, every distance
oracle and every depot, the ordering returned by the 2-opt improvement
step has total tour distance at most that of its input ordering
(monotonic non-increase); the loop only ever applies a reversal that
makes the tour strictly shorter. -/
theorem C4_two_opt_monotone (d : Point → Point → ℚ) (depot : Point)
    (tour : List Point) (maxIterations : ℕ) :
    Router.calculate_route_distance d depot
      (Router.two_opt_improvement d depot tour maxIterations) ≤
      Router.calculate_route_distance d depot tour :=
  Router.two_opt_improvement_le d depot maxIterations tour

/-- C8: planning by RAgent (agents/agent_r.py) neither reads nor leaks
instance state across calls: `plan_routes` overwrites every mutable
attribute at entry, so the returned route list is the same from any two
starting instance states, and an immediate second call with the same
inputs returns the same route list (idempotence); determinism in the
distance oracle and inputs is immediate since the embedding is a
function of them. -/
theorem C8_plan_routes_deterministic_stateless (d : Point → Point → ℚ)
    (dm : Point) (s1 s2 : AgentR.RAgentState) (packages : List Package)
    (fleet : List Vehicle) :
    (AgentR.plan_routes_st d dm s1 packages fleet).2 =
      (AgentR.plan_routes_st d dm s2 packages fleet).2 ∧
    (AgentR.plan_routes_st d dm
        (AgentR.plan_routes_st d dm s1 packages fleet).1 packages
        fleet).2 =
      (AgentR.plan_routes_st d dm s1 packages fleet).2 := by
  unfold AgentR.plan_routes_st
  by_cases hv : validate_inputs packages fleet <;> simp [hv]

/-- C10: `GameState.purchase_vehicle` returns True exactly when the
balance covers the purchase price; on success the balance drops by
exactly the purchase price and exactly one vehicle with the given id,
type and the current day is appended to the fleet (other fields
untouched); on failure the state is returned unchanged. -/
theorem C10_purchase_vehicle_spec (s : GameState) (vt : VehicleType)
    (vid : String) :
    ((s.purchase_vehicle vt vid).1 = true ↔ vt.purchase_price ≤ s.balance) ∧
    ((s.purchase_vehicle vt vid).1 = true →
      (s.purchase_vehicle vt vid).2.balance = s.balance - vt.purchase_price ∧
      (s.purchase_vehicle vt vid).2.fleet =
        s.fleet ++ [⟨vid, vt, s.current_day⟩] ∧
      (s.purchase_vehicle vt vid).2.current_day = s.current_day ∧
      (s.purchase_vehicle vt vid).2.packages_pending = s.packages_pending) ∧
    ((s.purchase_vehicle vt vid).1 = false →
      (s.purchase_vehicle vt vid).2 = s) := by
  unfold GameState.purchase_vehicle GameState.add_vehicle
  by_cases h : vt.purchase_price ≤ s.balance <;> simp [h]

/-- Witness for C10 at the state of the repository test
(initial balance 50000, purchase price 20000): the purchase succeeds, the
balance drops to 30000 and the fleet gains exactly the new vehicle. -/
theorem C10_purchase_vehicle_spec_witness :
    ((({ current_day := 1, balance := 50000, fleet := [],
         packages_pending := [] } : GameState).purchase_vehicle
        ⟨"Test Van", 12, 1, 20000, 300⟩ "veh_001").1 = true) ∧
    ((({ current_day := 1, balance := 50000, fleet := [],
         packages_pending := [] } : GameState).purchase_vehicle
        ⟨"Test Van", 12, 1, 20000, 300⟩ "veh_001").2.balance = 30000) ∧
    ((({ current_day := 1, balance := 50000, fleet := [],
         packages_pending := [] } : GameState).purchase_vehicle
        ⟨"Test Van", 12, 1, 20000, 300⟩ "veh_001").2.fleet =
      [⟨"veh_001", ⟨"Test Van", 12, 1, 20000, 300⟩, 1⟩]) := by
  have h := C10_purchase_vehicle_spec
    { current_day := 1, balance := 50000, fleet := [], packages_pending := [] }
    ⟨"Test Van", 12, 1, 20000, 300⟩ "veh_001"
  have htrue := h.1.mpr (by norm_num)
  have hsucc := h.2.1 htrue
  refine ⟨htrue, ?_, ?_⟩
  · rw [hsucc.1]
    norm_num
  · rw [hsucc.2.1]
    rfl
